import Mathlib

/-!
Shallow embedding of the chess-clock engine in `src/script.js`.

JavaScript numbers are modelled as rationals (all arithmetic in the engine
is exact: additions, subtractions, multiplications by constants, `max`).
The mutable global `state` object becomes the structure `ClockState`; each
handler becomes a pure state-transition function.  `step` additionally
returns the flag event (`some player`) that `flagPlayer` would emit, so
that "a flag event is signaled" is observable in the model.
DOM / audio / rAF calls are presentation effects outside the engine and
are dropped, matching the spec's scope.
-/

/-- A time-control preset (`presets` table, script.js lines 1-7). -/
structure Preset where
  label : String
  minutes : ℚ
  increment : ℚ
deriving DecidableEq

/-- The OWN entries of the `presets` object literal (script.js lines 1-7):
the five registered keys.  This is only the own-property part of the
JavaScript lookup `presets[key]`; the literal also inherits from
`Object.prototype`, which `presetsJS` below accounts for. -/
def presets (key : String) : Option Preset :=
  if key = "classical" then some ⟨"Classical", 90, 30⟩
  else if key = "rapid" then some ⟨"Rapid", 15, 10⟩
  else if key = "standard" then some ⟨"Standard", 10, 0⟩
  else if key = "blitz" then some ⟨"Blitz", 5, 3⟩
  else if key = "bullet" then some ⟨"Bullet", 1, 1⟩
  else none

/-- Own property names of `Object.prototype` in a standard JavaScript
engine: looking any of these up on the `presets` object literal finds a
truthy inherited member (a function, or for `__proto__` the prototype
object itself) instead of `undefined`. -/
def objectPrototypeKeys : List String :=
  ["constructor", "hasOwnProperty", "isPrototypeOf", "propertyIsEnumerable",
   "toLocaleString", "toString", "valueOf", "__proto__", "__defineGetter__",
   "__defineSetter__", "__lookupGetter__", "__lookupSetter__"]

/-- Result of the full JavaScript lookup `presets[key]` (script.js line
98): an own property of the literal (a registered preset), a truthy
member inherited from `Object.prototype` (whose `minutes` and
`increment` properties are `undefined`), or `undefined` for a key absent
from the whole prototype chain. -/
inductive PresetLookup where
  | own (p : Preset)
  | inheritedMember
  | undefined
deriving DecidableEq

/-- The full JavaScript lookup `presets[key]`: own properties shadow the
prototype chain; only a key absent from both yields `undefined`, the
sole falsy outcome that makes the `!preset` guard (script.js line 99)
fire. -/
def presetsJS (key : String) : PresetLookup :=
  match presets key with
  | some p => .own p
  | none => if key ∈ objectPrototypeKeys then .inheritedMember else .undefined

/-- A JavaScript numeric slot as `applyPreset` can leave it: a real
number, `NaN`, or `undefined`. -/
inductive JSVal where
  | num (q : ℚ)
  | nan
  | undefined
deriving DecidableEq

/-- JavaScript multiplication on such slots: numbers multiply; any
operand that is `undefined` or `NaN` makes the result `NaN`. -/
def JSVal.mul : JSVal → JSVal → JSVal
  | .num a, .num b => .num (a * b)
  | _, _ => .nan

/-- The engine state (`state` object, script.js lines 9-19).
`raf` (the animation-frame handle) is presentation-side bookkeeping and
is not modelled. -/
structure ClockState where
  baseMinutes : ℚ
  incrementSeconds : ℚ
  times : ℚ × ℚ
  incrementMs : ℚ
  activePlayer : Option (Fin 2)
  running : Bool
  lastTick : Option ℚ
  presetKey : String
deriving DecidableEq

/-- Initial value of `state` (script.js lines 9-19): rapid preset numbers,
`times = [0, 0]` until `init()` runs `applyPreset`. -/
def initState : ClockState :=
  { baseMinutes := 15
    incrementSeconds := 10
    times := (0, 0)
    incrementMs := 10000
    activePlayer := none
    running := false
    lastTick := none
    presetKey := "rapid" }

/-- `state.times[i]` read. -/
def getTime (s : ClockState) (i : Fin 2) : ℚ :=
  if i = 0 then s.times.1 else s.times.2

/-- `state.times[i] = v` write. -/
def setTime (s : ClockState) (i : Fin 2) (v : ℚ) : ClockState :=
  if i = 0 then { s with times := (v, s.times.2) }
  else { s with times := (s.times.1, v) }

/-- `playerIndex === 0 ? 1 : 0` (the other side). -/
def other (i : Fin 2) : Fin 2 :=
  if i = 0 then 1 else 0

/-- `stopClock()` (script.js 154-161): clears `running`; the rAF
cancellation is scheduler bookkeeping, not engine state. -/
def stopClock (s : ClockState) : ClockState :=
  { s with running := false }

/-- `resetClock()` (script.js 123-132): both sides get
`baseMinutes*60*1000`, active player and tick baseline cleared. -/
def resetClock (s : ClockState) : ClockState :=
  let base := s.baseMinutes * 60 * 1000
  { s with times := (base, base), activePlayer := none, lastTick := none }

/-- `applyPreset(key)` (script.js 97-110) restricted to keys on which the
lookup is an own property or absent from the whole prototype chain (in
the shipped page these are the only keys ever passed: the five preset
buttons).  The prototype-chain cases are covered by `applyPresetJS`
below, over a state type that can hold the resulting `undefined`/`NaN`
slots. -/
def applyPreset (key : String) (s : ClockState) : ClockState :=
  match presets key with
  | none => s
  | some p =>
      resetClock (stopClock
        { s with presetKey := key
                 baseMinutes := p.minutes
                 incrementSeconds := p.increment
                 incrementMs := p.increment * 1000 })

/-- `applyCustom(minutes, increment)` (script.js 112-121): clamp minutes
to `max 1`, increment to `max 0`, stop and reset. -/
def applyCustom (minutes increment : ℚ) (s : ClockState) : ClockState :=
  let s1 := { s with presetKey := "custom"
                     baseMinutes := max 1 minutes
                     incrementSeconds := max 0 increment }
  resetClock (stopClock { s1 with incrementMs := s1.incrementSeconds * 1000 })

/-- `toggleStart()` (script.js 134-152): pause when running; otherwise
default the active player to side 0, start running, clear the baseline. -/
def toggleStart (s : ClockState) : ClockState :=
  if s.running then stopClock s
  else
    { s with activePlayer := some (s.activePlayer.getD 0)
             running := true
             lastTick := none }

/-- `confirmReset()` engine effect (script.js 91-95): stop then reset. -/
def confirmReset (s : ClockState) : ClockState :=
  resetClock (stopClock s)

/-- `step(timestamp)` (script.js 167-186) together with the engine part of
`flagPlayer` (279-286).  Returns the new state and the flag event emitted
(`some p` when `flagPlayer(p)` fired).  A `null` `lastTick` is first set
to `timestamp`, so the delta of that call is zero. -/
def step (timestamp : ℚ) (s : ClockState) : ClockState × Option (Fin 2) :=
  if s.running = false then (s, none)
  else
    let last := s.lastTick.getD timestamp
    let delta := timestamp - last
    let s1 := { s with lastTick := some timestamp }
    match s1.activePlayer with
    | none => (s1, none)
    | some p =>
        let newT := max 0 (getTime s1 p - delta)
        let s2 := setTime s1 p newT
        if newT = 0 then (stopClock s2, some p) else (s2, none)

/-- `handlePlayerTap(playerIndex)` (script.js 188-196): guarded turn pass;
credits the increment to the side relinquishing the turn. -/
def handlePlayerTap (i : Fin 2) (s : ClockState) : ClockState :=
  if ¬(s.running = true ∧ s.activePlayer = some i) then s
  else if getTime s i = 0 then s
  else
    let s1 := setTime s i (getTime s i + s.incrementMs)
    { s1 with activePlayer := some (other i), lastTick := none }

/-- `swapPlayers()` (script.js 203-210): exchange the two times, flip the
active player when set. -/
def swapPlayers (s : ClockState) : ClockState :=
  { s with times := (s.times.2, s.times.1)
           activePlayer := s.activePlayer.map other }

/-- The engine state with JavaScript numeric slots: identical to
`ClockState` except that the four numeric fields can also hold the
`undefined`/`NaN` values that `applyPreset` produces on a
prototype-inherited key. -/
structure JSClockState where
  baseMinutes : JSVal
  incrementSeconds : JSVal
  times : JSVal × JSVal
  incrementMs : JSVal
  activePlayer : Option (Fin 2)
  running : Bool
  lastTick : Option ℚ
  presetKey : String
deriving DecidableEq

/-- A `ClockState` viewed as a `JSClockState` (all numeric slots hold
real numbers). -/
def ClockState.toJS (s : ClockState) : JSClockState :=
  { baseMinutes := .num s.baseMinutes
    incrementSeconds := .num s.incrementSeconds
    times := (.num s.times.1, .num s.times.2)
    incrementMs := .num s.incrementMs
    activePlayer := s.activePlayer
    running := s.running
    lastTick := s.lastTick
    presetKey := s.presetKey }

/-- `stopClock()` over JavaScript numeric slots. -/
def stopClockJS (s : JSClockState) : JSClockState :=
  { s with running := false }

/-- `resetClock()` (script.js 123-132) over JavaScript numeric slots:
`baseMinutes * 60 * 1000` is `NaN` when `baseMinutes` is `undefined`. -/
def resetClockJS (s : JSClockState) : JSClockState :=
  let base := (s.baseMinutes.mul (.num 60)).mul (.num 1000)
  { s with times := (base, base), activePlayer := none, lastTick := none }

/-- `applyPreset(key)` (script.js 97-110) with the full JavaScript
lookup: a registered key loads its numbers; a key inherited from
`Object.prototype` passes the `!preset` guard and clobbers the state
(`preset.minutes` and `preset.increment` are `undefined`, so
`incrementMs` becomes `NaN` and the reset leaves both times `NaN`);
only a key absent from the whole chain is a no-op. -/
def applyPresetJS (key : String) (s : JSClockState) : JSClockState :=
  match presetsJS key with
  | .own p =>
      resetClockJS (stopClockJS
        { s with presetKey := key
                 baseMinutes := .num p.minutes
                 incrementSeconds := .num p.increment
                 incrementMs := JSVal.mul (.num p.increment) (.num 1000) })
  | .inheritedMember =>
      resetClockJS (stopClockJS
        { s with presetKey := key
                 baseMinutes := .undefined
                 incrementSeconds := .undefined
                 incrementMs := JSVal.mul .undefined (.num 1000) })
  | .undefined => s

/-- A concrete pre-swap state used by the spec's swap scenario:
`remaining=[910000,900000]`, `activeSide=1`. -/
def swapDemoState : ClockState :=
  { baseMinutes := 15
    incrementSeconds := 10
    times := (910000, 900000)
    incrementMs := 10000
    activePlayer := some 1
    running := true
    lastTick := none
    presetKey := "rapid" }

/-- A concrete mid-game bullet state: side 0 active with 60000 ms left,
baseline established at timestamp 0. -/
def bulletRunState : ClockState :=
  { baseMinutes := 1
    incrementSeconds := 1
    times := (60000, 60000)
    incrementMs := 1000
    activePlayer := some 0
    running := true
    lastTick := some 0
    presetKey := "bullet" }

/-- The engine state right after loading the bullet preset. -/
def bulletResetState : ClockState :=
  { baseMinutes := 1
    incrementSeconds := 1
    times := (60000, 60000)
    incrementMs := 1000
    activePlayer := none
    running := false
    lastTick := none
    presetKey := "bullet" }

/-- The engine state right after side 0 has flagged on the bullet
control at timestamp 60000. -/
def bulletFlaggedState : ClockState :=
  { baseMinutes := 1
    incrementSeconds := 1
    times := (0, 60000)
    incrementMs := 1000
    activePlayer := some 0
    running := false
    lastTick := some 60000
    presetKey := "bullet" }

/-- A concrete just-started bullet state: running, side 0 active with the
full 60000 ms, no tick baseline yet. -/
def bulletFreshState : ClockState :=
  { baseMinutes := 1
    incrementSeconds := 1
    times := (60000, 60000)
    incrementMs := 1000
    activePlayer := some 0
    running := true
    lastTick := none
    presetKey := "bullet" }

/-- A state reached by flagging side 0 on the bullet control and then
pressing the start button again ("Restart"): side 0 active at 0 ms,
running, with a cleared tick baseline. -/
def flaggedRestartState : ClockState :=
  { baseMinutes := 1
    incrementSeconds := 1
    times := (0, 60000)
    incrementMs := 1000
    activePlayer := some 0
    running := true
    lastTick := none
    presetKey := "bullet" }

theorem presets_bullet : presets "bullet" = some ⟨"Bullet", 1, 1⟩ := rfl

theorem presets_blitz : presets "blitz" = some ⟨"Blitz", 5, 3⟩ := rfl

theorem other_other (i : Fin 2) : other (other i) = i := by
  fin_cases i <;> rfl

theorem other_ne (i : Fin 2) : other i ≠ i := by
  fin_cases i <;> decide

theorem getTime_setTime (s : ClockState) (i : Fin 2) (v : ℚ) :
    getTime (setTime s i v) i = v := by
  fin_cases i <;> simp [getTime, setTime]

theorem getTime_setTime_ne (s : ClockState) (i j : Fin 2) (v : ℚ)
    (h : j ≠ i) : getTime (setTime s i v) j = getTime s j := by
  fin_cases i <;> fin_cases j <;> simp_all [getTime, setTime]

/-- C9: applying `swapPlayers` twice restores the entire state (so in
particular both remaining times and the active side): swap is an
involution. -/
theorem swapPlayers_involution (s : ClockState) :
    swapPlayers (swapPlayers s) = s := by
  cases s with
  | mk bm isec ts inc ap r lt pk =>
      rcases ap with _ | p <;> simp [swapPlayers, other_other]

/-- C6: `swapPlayers` exchanges the two remaining times, maps the active
side through `other` (flipping it when set, leaving `none` unchanged,
with `other 0 = 1` and `other 1 = 0`), and leaves `running` untouched;
concretely, from `remaining=[910000,900000]` with `activeSide=1` it
yields `remaining=[900000,910000]` with `activeSide=0`. -/
theorem swapPlayers_spec (s : ClockState) :
    (swapPlayers s).times = (s.times.2, s.times.1) ∧
    (swapPlayers s).activePlayer = Option.map other s.activePlayer ∧
    other 0 = 1 ∧ other 1 = 0 ∧
    (swapPlayers s).running = s.running ∧
    (swapPlayers swapDemoState).times = (900000, 910000) ∧
    (swapPlayers swapDemoState).activePlayer = some 0 := by
  refine ⟨rfl, rfl, rfl, rfl, rfl, rfl, rfl⟩

/-- C8: the custom control clamps minutes to `max 1` and increment to
`max 0` (no upper bound); concretely `minutes=0.4, increment=-5` clamps
to `minutes=1, increment=0`. -/
theorem applyCustom_clamps (m i : ℚ) (s : ClockState) :
    (applyCustom m i s).baseMinutes = max 1 m ∧
    (applyCustom m i s).incrementSeconds = max 0 i ∧
    (applyCustom (2/5) (-5) s).baseMinutes = 1 ∧
    (applyCustom (2/5) (-5) s).incrementSeconds = 0 := by
  refine ⟨rfl, rfl, ?_, ?_⟩ <;> norm_num [applyCustom, resetClock, stopClock]

/-- C7: a turn pass is silently ignored (the whole state, every component
included, is returned unchanged, and no event is emitted) when the clock
is not running, or the tapping side is not the active side, or that
side's remaining time is 0. -/
theorem handlePlayerTap_noop (i : Fin 2) (s : ClockState)
    (h : s.running = false ∨ s.activePlayer ≠ some i ∨ getTime s i = 0) :
    handlePlayerTap i s = s := by
  unfold handlePlayerTap
  rcases h with h | h | h
  · simp [h]
  · simp [h]
  · by_cases hg : s.running = true ∧ s.activePlayer = some i
    · simp [hg, h]
    · simp [hg]

theorem handlePlayerTap_noop_witness :
    initState.running = false ∧ handlePlayerTap 0 initState = initState :=
  ⟨rfl, handlePlayerTap_noop 0 initState (Or.inl rfl)⟩

theorem presets_toString : presets "toString" = none := rfl

/-- On every key on which the JavaScript lookup is an own property or
absent from the whole prototype chain — in particular on every key the
shipped page ever passes — the prototype-aware model agrees with
`applyPreset`. -/
theorem applyPresetJS_agrees (key : String) (s : ClockState)
    (h : (presets key).isSome ∨ key ∉ objectPrototypeKeys) :
    applyPresetJS key (ClockState.toJS s) = ClockState.toJS (applyPreset key s) := by
  cases hk : presets key with
  | some p =>
      simp [applyPresetJS, presetsJS, applyPreset, hk, resetClockJS, resetClock,
        stopClockJS, stopClock, ClockState.toJS, JSVal.mul]
  | none =>
      rcases h with h | h
      · rw [hk] at h
        exact absurd h (by simp)
      · simp [applyPresetJS, presetsJS, applyPreset, hk, h]

/-- C10 counterexample: "toString" is not one of the five registered
preset keys, yet applying it is not a no-op: the lookup finds the
function inherited from Object.prototype, the falsy-preset guard does
not fire, and the state is clobbered — the selected key becomes
"toString", `baseMinutes` becomes `undefined`, `incrementMs` becomes
`NaN`, both remaining times become `NaN`, the clock stops and the
active side is cleared. -/
theorem applyPreset_protoKey_cex :
    ("toString" ≠ "classical" ∧ "toString" ≠ "rapid" ∧ "toString" ≠ "standard" ∧
     "toString" ≠ "blitz" ∧ "toString" ≠ "bullet") ∧
    applyPresetJS "toString" (ClockState.toJS swapDemoState) ≠
      ClockState.toJS swapDemoState ∧
    (applyPresetJS "toString" (ClockState.toJS swapDemoState)).presetKey = "toString" ∧
    (applyPresetJS "toString" (ClockState.toJS swapDemoState)).baseMinutes = JSVal.undefined ∧
    (applyPresetJS "toString" (ClockState.toJS swapDemoState)).incrementMs = JSVal.nan ∧
    (applyPresetJS "toString" (ClockState.toJS swapDemoState)).times =
      (JSVal.nan, JSVal.nan) ∧
    (applyPresetJS "toString" (ClockState.toJS swapDemoState)).running = false ∧
    (applyPresetJS "toString" (ClockState.toJS swapDemoState)).activePlayer = none ∧
    (ClockState.toJS swapDemoState).presetKey = "rapid" ∧
    (ClockState.toJS swapDemoState).running = true ∧
    (ClockState.toJS swapDemoState).activePlayer = some 1 := by
  refine ⟨by decide, ?_, rfl, rfl, rfl, rfl, rfl, rfl, rfl, rfl, rfl⟩
  decide

/-- C10 (amended): for every key that is neither one of the five
registered preset keys nor a property name inherited from
Object.prototype, applying that preset key is a complete no-op: the
whole state (remaining times, active side, running flag, increment,
selected preset key) is returned unchanged. -/
theorem applyPresetJS_unknown_noop (key : String) (s : JSClockState)
    (h : (key ≠ "classical" ∧ key ≠ "rapid" ∧ key ≠ "standard" ∧
          key ≠ "blitz" ∧ key ≠ "bullet") ∧ key ∉ objectPrototypeKeys) :
    applyPresetJS key s = s := by
  obtain ⟨⟨h1, h2, h3, h4, h5⟩, h6⟩ := h
  have hk : presets key = none := by simp [presets, h1, h2, h3, h4, h5]
  simp [applyPresetJS, presetsJS, hk, h6]

theorem applyPresetJS_unknown_noop_witness :
    (("fischer" ≠ "classical" ∧ "fischer" ≠ "rapid" ∧ "fischer" ≠ "standard" ∧
      "fischer" ≠ "blitz" ∧ "fischer" ≠ "bullet") ∧
     "fischer" ∉ objectPrototypeKeys) ∧
    applyPresetJS "fischer" (ClockState.toJS initState) = ClockState.toJS initState :=
  ⟨by decide,
    applyPresetJS_unknown_noop "fischer" (ClockState.toJS initState) (by decide)⟩

/-- C2: a valid turn pass (running, tapping side active, its time `r`
positive) credits the increment to the relinquishing side
(`r + incrementMs`), flips the active side, clears the tick baseline,
and leaves the receiving side's time unchanged. -/
theorem handlePlayerTap_passes_turn (i : Fin 2) (s : ClockState) (r : ℚ)
    (hr : s.running = true) (ha : s.activePlayer = some i)
    (ht : getTime s i = r) (hpos : 0 < r) :
    getTime (handlePlayerTap i s) i = r + s.incrementMs ∧
    (handlePlayerTap i s).activePlayer = some (other i) ∧
    (handlePlayerTap i s).lastTick = none ∧
    getTime (handlePlayerTap i s) (other i) = getTime s (other i) := by
  have hne : ¬getTime s i = 0 := by rw [ht]; exact ne_of_gt hpos
  have htap : handlePlayerTap i s =
      { setTime s i (getTime s i + s.incrementMs) with
          activePlayer := some (other i), lastTick := none } := by
    unfold handlePlayerTap
    simp [hr, ha, hne]
  rw [htap]
  have e1 : getTime { setTime s i (getTime s i + s.incrementMs) with
      activePlayer := some (other i), lastTick := none } i
        = getTime (setTime s i (getTime s i + s.incrementMs)) i := by
    fin_cases i <;> simp [getTime, setTime]
  have e2 : getTime { setTime s i (getTime s i + s.incrementMs) with
      activePlayer := some (other i), lastTick := none } (other i)
        = getTime (setTime s i (getTime s i + s.incrementMs)) (other i) := by
    fin_cases i <;> simp [getTime, setTime, other]
  refine ⟨?_, rfl, rfl, ?_⟩
  · rw [e1, getTime_setTime, ht]
  · rw [e2, getTime_setTime_ne _ _ _ _ (other_ne i)]

theorem setTime_activePlayer (s : ClockState) (i : Fin 2) (v : ℚ) :
    (setTime s i v).activePlayer = s.activePlayer := by
  fin_cases i <;> rfl

theorem setTime_lastTick (s : ClockState) (i : Fin 2) (v : ℚ) :
    (setTime s i v).lastTick = s.lastTick := by
  fin_cases i <;> rfl

theorem setTime_times_self (s : ClockState) (i : Fin 2) :
    (setTime s i (getTime s i)).times = s.times := by
  fin_cases i <;> simp [setTime, getTime]

theorem step_not_running (u : ℚ) (s : ClockState) (h : s.running = false) :
    step u s = (s, none) := by
  simp [step, h]

theorem step_running_active (t : ℚ) (s : ClockState) (p : Fin 2)
    (hr : s.running = true) (ha : s.activePlayer = some p) :
    step t s =
      if max 0 (getTime s p - (t - s.lastTick.getD t)) = 0 then
        (stopClock (setTime { s with lastTick := some t } p
            (max 0 (getTime s p - (t - s.lastTick.getD t)))), some p)
      else
        (setTime { s with lastTick := some t } p
            (max 0 (getTime s p - (t - s.lastTick.getD t))), none) := by
  unfold step
  have hg : getTime { s with lastTick := some t } p = getTime s p := by
    fin_cases p <;> rfl
  simp only [hr, Bool.true_eq_false, if_false, ha, hg]
  rfl

theorem presets_sound (key : String) (p : Preset) (hk : presets key = some p) :
    1 ≤ p.minutes ∧ 0 ≤ p.increment := by
  unfold presets at hk
  split_ifs at hk <;> (injection hk with hk; rw [← hk]; norm_num)

/-- C4: applying a time control — the custom control with minutes `m >= 1`
and increment `i >= 0`, or any registered preset `p` — leaves both
remaining times at `minutes*60000` ms, sets `incrementMs` to
`increment*1000`, clears the active side and stops the clock. -/
theorem applyTimeControl_resets (s : ClockState) (m i : ℚ) (key : String)
    (p : Preset) (hm : 1 ≤ m) (hi : 0 ≤ i) (hk : presets key = some p) :
    ((applyCustom m i s).times = (m * 60000, m * 60000) ∧
     (applyCustom m i s).incrementMs = i * 1000 ∧
     (applyCustom m i s).activePlayer = none ∧
     (applyCustom m i s).running = false) ∧
    ((applyPreset key s).times = (p.minutes * 60000, p.minutes * 60000) ∧
     (applyPreset key s).incrementMs = p.increment * 1000 ∧
     (applyPreset key s).activePlayer = none ∧
     (applyPreset key s).running = false) := by
  constructor
  · have h1 : max 1 m = m := max_eq_right hm
    have h2 : max 0 i = i := max_eq_right hi
    refine ⟨?_, ?_, rfl, rfl⟩ <;>
      norm_num [applyCustom, resetClock, stopClock, h1, h2, mul_assoc]
  · have hp : applyPreset key s =
        resetClock (stopClock
          { s with presetKey := key
                   baseMinutes := p.minutes
                   incrementSeconds := p.increment
                   incrementMs := p.increment * 1000 }) := by
      unfold applyPreset
      rw [hk]
    rw [hp]
    refine ⟨?_, rfl, rfl, rfl⟩
    simp [resetClock, stopClock]
    ring

theorem applyTimeControl_resets_witness :
    ((1:ℚ) ≤ 2 ∧ (0:ℚ) ≤ 0 ∧ presets "blitz" = some ⟨"Blitz", 5, 3⟩) ∧
    (((applyCustom 2 0 initState).times = (2 * 60000, 2 * 60000) ∧
      (applyCustom 2 0 initState).incrementMs = 0 * 1000 ∧
      (applyCustom 2 0 initState).activePlayer = none ∧
      (applyCustom 2 0 initState).running = false) ∧
     ((applyPreset "blitz" initState).times =
        ((⟨"Blitz", 5, 3⟩ : Preset).minutes * 60000,
         (⟨"Blitz", 5, 3⟩ : Preset).minutes * 60000) ∧
      (applyPreset "blitz" initState).incrementMs =
        (⟨"Blitz", 5, 3⟩ : Preset).increment * 1000 ∧
      (applyPreset "blitz" initState).activePlayer = none ∧
      (applyPreset "blitz" initState).running = false)) :=
  ⟨⟨by norm_num, le_refl 0, presets_blitz⟩,
    applyTimeControl_resets initState 2 0 "blitz" ⟨"Blitz", 5, 3⟩
      (by norm_num) (le_refl 0) presets_blitz⟩

/-- The inductive invariant behind the spec's nonnegativity guarantee:
both remaining times, the increment, and the base minutes are
nonnegative. -/
def ClockInv (s : ClockState) : Prop :=
  0 ≤ s.times.1 ∧ 0 ≤ s.times.2 ∧ 0 ≤ s.incrementMs ∧ 0 ≤ s.baseMinutes

theorem Inv_resetClock (s : ClockState) (h : ClockInv s) : ClockInv (resetClock s) := by
  obtain ⟨-, -, h3, h4⟩ := h
  refine ⟨?_, ?_, h3, h4⟩ <;> simp [resetClock] <;> nlinarith [h4]

theorem Inv_applyPreset (key : String) (s : ClockState) (h : ClockInv s) :
    ClockInv (applyPreset key s) := by
  unfold applyPreset
  cases hk : presets key with
  | none => exact h
  | some p =>
      obtain ⟨hm, hi⟩ := presets_sound key p hk
      refine ⟨?_, ?_, ?_, ?_⟩ <;> simp [resetClock, stopClock] <;> nlinarith [hm, hi]

theorem Inv_applyCustom (m i : ℚ) (s : ClockState) (_h : ClockInv s) :
    ClockInv (applyCustom m i s) := by
  have hm : (0:ℚ) ≤ max 1 m := le_trans zero_le_one (le_max_left 1 m)
  have hi : (0:ℚ) ≤ max 0 i := le_max_left 0 i
  refine ⟨?_, ?_, ?_, ?_⟩ <;> simp [applyCustom, resetClock, stopClock]

theorem Inv_toggleStart (s : ClockState) (h : ClockInv s) : ClockInv (toggleStart s) := by
  unfold toggleStart
  split_ifs <;> exact h

theorem Inv_stopClock (s : ClockState) (h : ClockInv s) : ClockInv (stopClock s) := h

theorem Inv_handlePlayerTap (i : Fin 2) (s : ClockState) (h : ClockInv s) :
    ClockInv (handlePlayerTap i s) := by
  obtain ⟨h1, h2, h3, h4⟩ := h
  unfold handlePlayerTap
  split_ifs
  all_goals
    first
      | exact ⟨h1, h2, h3, h4⟩
      | (fin_cases i <;>
          (refine ⟨?_, ?_, h3, h4⟩ <;> simp [setTime, getTime] <;> linarith))

theorem Inv_step (t : ℚ) (s : ClockState) (h : ClockInv s) : ClockInv (step t s).1 := by
  obtain ⟨h1, h2, h3, h4⟩ := h
  unfold step
  split_ifs
  · exact ⟨h1, h2, h3, h4⟩
  · cases hap : s.activePlayer with
    | none => exact ⟨h1, h2, h3, h4⟩
    | some p =>
        simp only [hap]
        split_ifs <;> fin_cases p <;>
          refine ⟨?_, ?_, h3, h4⟩ <;>
          simp [stopClock, setTime, getTime] <;>
          first
            | exact le_max_left 0 _
            | exact h1
            | exact h2

theorem Inv_confirmReset (s : ClockState) (h : ClockInv s) : ClockInv (confirmReset s) :=
  Inv_resetClock _ (Inv_stopClock s h)

theorem Inv_swapPlayers (s : ClockState) (h : ClockInv s) : ClockInv (swapPlayers s) :=
  ⟨h.2.1, h.1, h.2.2.1, h.2.2.2⟩

/-- C5: both remaining times stay nonnegative: the invariant (remaining
times, increment and base minutes all nonnegative) holds in the initial
state and is preserved by every public operation — applying a preset or
custom time control, start/pause toggling, explicit stop, a turn pass, a
tick, reset, and swap — so no operation ever makes a remaining value
negative. -/
theorem remaining_nonneg (s : ClockState) (h : ClockInv s) :
    ClockInv initState ∧
    (∀ key, ClockInv (applyPreset key s)) ∧
    (∀ m i, ClockInv (applyCustom m i s)) ∧
    ClockInv (toggleStart s) ∧
    ClockInv (stopClock s) ∧
    (∀ i, ClockInv (handlePlayerTap i s)) ∧
    (∀ t, ClockInv (step t s).1) ∧
    ClockInv (confirmReset s) ∧
    ClockInv (swapPlayers s) :=
  ⟨⟨le_refl 0, le_refl 0, by norm_num [initState], by norm_num [initState]⟩,
   fun key => Inv_applyPreset key s h,
   fun m i => Inv_applyCustom m i s h,
   Inv_toggleStart s h,
   Inv_stopClock s h,
   fun i => Inv_handlePlayerTap i s h,
   fun t => Inv_step t s h,
   Inv_confirmReset s h,
   Inv_swapPlayers s h⟩

theorem remaining_nonneg_witness :
    ClockInv bulletRunState ∧
    (ClockInv initState ∧
     (∀ key, ClockInv (applyPreset key bulletRunState)) ∧
     (∀ m i, ClockInv (applyCustom m i bulletRunState)) ∧
     ClockInv (toggleStart bulletRunState) ∧
     ClockInv (stopClock bulletRunState) ∧
     (∀ i, ClockInv (handlePlayerTap i bulletRunState)) ∧
     (∀ t, ClockInv (step t bulletRunState).1) ∧
     ClockInv (confirmReset bulletRunState) ∧
     ClockInv (swapPlayers bulletRunState)) := by
  have h : ClockInv bulletRunState := by
    refine ⟨?_, ?_, ?_, ?_⟩ <;> norm_num [bulletRunState]
  exact ⟨h, remaining_nonneg bulletRunState h⟩

/-- C1: when the active side's remaining time reaches exactly 0 through a
tick, the engine stops running, leaves the active side equal to the
flagged side, and every subsequent tick call returns the state unchanged
(so no remaining value changes again) and emits no further event. -/
theorem tick_flag_exactness (s : ClockState) (t : ℚ) (p : Fin 2)
    (hr : s.running = true) (ha : s.activePlayer = some p)
    (h0 : getTime (step t s).1 p = 0) :
    (step t s).1.running = false ∧
    (step t s).1.activePlayer = some p ∧
    ∀ u, step u (step t s).1 = ((step t s).1, none) := by
  have hs := step_running_active t s p hr ha
  by_cases hz : max 0 (getTime s p - (t - s.lastTick.getD t)) = 0
  · rw [if_pos hz] at hs
    rw [hs]
    refine ⟨rfl, ?_, ?_⟩
    · simp [stopClock, setTime_activePlayer, ha]
    · intro u
      exact step_not_running u _ rfl
  · exfalso
    rw [if_neg hz] at hs
    rw [hs] at h0
    dsimp only at h0
    rw [getTime_setTime] at h0
    exact hz h0

theorem tick_flag_exactness_witness :
    bulletRunState.running = true ∧
    bulletRunState.activePlayer = some 0 ∧
    getTime (step 60000 bulletRunState).1 0 = 0 ∧
    ((step 60000 bulletRunState).1.running = false ∧
     (step 60000 bulletRunState).1.activePlayer = some 0 ∧
     ∀ u, step u (step 60000 bulletRunState).1 = ((step 60000 bulletRunState).1, none)) := by
  have h0 : getTime (step 60000 bulletRunState).1 0 = 0 := by
    norm_num [step, bulletRunState, getTime, setTime, stopClock]
  exact ⟨rfl, rfl, h0, tick_flag_exactness bulletRunState 60000 0 rfl rfl h0⟩

/-- C3 (amended): a tick while running with a `null` baseline sets
`lastTick` to the supplied timestamp and leaves both remaining values
unchanged (zero elapsed delta); it emits no flag event exactly when the
active side, if any, has nonzero remaining time — but when the active
side is already at 0, this baseline tick does emit a flag event. -/
theorem baseline_tick (s : ClockState) (t : ℚ)
    (hr : s.running = true) (hl : s.lastTick = none)
    (h0 : 0 ≤ s.times.1) (h1 : 0 ≤ s.times.2) :
    (step t s).1.lastTick = some t ∧
    (step t s).1.times = s.times ∧
    ((step t s).2 = none ↔ ∀ p, s.activePlayer = some p → getTime s p ≠ 0) := by
  have hg : ∀ q : Fin 2, 0 ≤ getTime s q := by
    intro q; fin_cases q <;> simpa [getTime]
  rcases hap : s.activePlayer with _ | p
  · have hs : step t s = ({ s with lastTick := some t }, none) := by
      unfold step
      simp [hr, hap]
    rw [hs]
    exact ⟨rfl, rfl, by simp [hap]⟩
  · have hmax : max 0 (getTime s p - (t - s.lastTick.getD t)) = getTime s p := by
      rw [hl]
      simp [max_eq_right (hg p)]
    have hs := step_running_active t s p hr hap
    rw [hmax] at hs
    have htimes : (setTime { s with lastTick := some t } p (getTime s p)).times = s.times := by
      fin_cases p <;> simp [setTime, getTime]
    by_cases hz : getTime s p = 0
    · rw [if_pos hz] at hs
      rw [hs]
      refine ⟨?_, ?_, ?_⟩
      · simp [stopClock, setTime_lastTick]
      · exact htimes
      · constructor
        · intro hfalse
          exact Option.noConfusion hfalse
        · intro hall
          exact absurd hz (hall p rfl)
    · rw [if_neg hz] at hs
      rw [hs]
      refine ⟨by simp [setTime_lastTick], htimes, ?_⟩
      constructor
      · intro _ q hq
        injection hq with hq
        rw [← hq]
        exact hz
      · intro _
        rfl

theorem baseline_tick_witness :
    bulletFreshState.running = true ∧ bulletFreshState.lastTick = none ∧
    (0:ℚ) ≤ bulletFreshState.times.1 ∧ (0:ℚ) ≤ bulletFreshState.times.2 ∧
    ((step 5 bulletFreshState).1.lastTick = some 5 ∧
     (step 5 bulletFreshState).1.times = bulletFreshState.times ∧
     ((step 5 bulletFreshState).2 = none ↔
       ∀ p, bulletFreshState.activePlayer = some p → getTime bulletFreshState p ≠ 0)) := by
  have h0 : (0:ℚ) ≤ bulletFreshState.times.1 := by norm_num [bulletFreshState]
  have h1 : (0:ℚ) ≤ bulletFreshState.times.2 := by norm_num [bulletFreshState]
  exact ⟨rfl, rfl, h0, h1, baseline_tick bulletFreshState 5 rfl rfl h0 h1⟩

/-- C3 counterexample: `flaggedRestartState` is reachable (flag side 0 on
the bullet control, then press start again), it is running with a `null`
baseline, and the very next tick — a baseline-establishing call — emits a
flag event for side 0, contradicting the claim that no flag is signaled
by such a call. -/
theorem baseline_tick_flags_cex :
    flaggedRestartState =
      toggleStart (step 60000 (step 0 (toggleStart (applyPreset "bullet" initState))).1).1 ∧
    flaggedRestartState.running = true ∧
    flaggedRestartState.lastTick = none ∧
    (step 70000 flaggedRestartState).2 = some 0 := by
  have e1 : applyPreset "bullet" initState = bulletResetState := by
    norm_num [applyPreset, presets_bullet, resetClock, stopClock, initState, bulletResetState]
  have e2 : toggleStart bulletResetState = bulletFreshState := by
    norm_num [toggleStart, stopClock, bulletResetState, bulletFreshState]
  have e3 : step 0 bulletFreshState = (bulletRunState, none) := by
    norm_num [step, bulletFreshState, bulletRunState, getTime, setTime, stopClock, max_def]
  have e4 : step 60000 bulletRunState = (bulletFlaggedState, some 0) := by
    norm_num [step, bulletRunState, bulletFlaggedState, getTime, setTime, stopClock, max_def]
  have e5 : toggleStart bulletFlaggedState = flaggedRestartState := by
    norm_num [toggleStart, stopClock, bulletFlaggedState, flaggedRestartState]
  refine ⟨?_, rfl, rfl, ?_⟩
  · simp only [e1, e2, e3, e4, e5]
  · norm_num [step, flaggedRestartState, getTime, setTime, stopClock, max_def]

theorem handlePlayerTap_passes_turn_witness :
    swapDemoState.running = true ∧ swapDemoState.activePlayer = some 1 ∧
    getTime swapDemoState 1 = 900000 ∧ (0 : ℚ) < 900000 ∧
    (getTime (handlePlayerTap 1 swapDemoState) 1 = 900000 + swapDemoState.incrementMs ∧
     (handlePlayerTap 1 swapDemoState).activePlayer = some (other 1) ∧
     (handlePlayerTap 1 swapDemoState).lastTick = none ∧
     getTime (handlePlayerTap 1 swapDemoState) (other 1) = getTime swapDemoState (other 1)) :=
  ⟨rfl, rfl, rfl, by norm_num,
    handlePlayerTap_passes_turn 1 swapDemoState 900000 rfl rfl rfl (by norm_num)⟩
